import Mathlib

/-!
Shallow embedding of the Grok insights processing platform
(src/rate_limiter.py, src/grok_client.py, src/batch_processor.py)
and verification of the frozen claims about it.

Python floating-point timestamps are modelled as rationals; the Python
built-in `int()` (truncation toward zero) is modelled by `ratTrunc`.
-/

namespace GrokPlatform

/-- Python `int(q)` on a float: truncation toward zero. -/
def ratTrunc (q : ℚ) : ℤ := if 0 ≤ q then ⌊q⌋ else ⌈q⌉

/-! ## Rate limiter (src/rate_limiter.py)

`RateLimiter.__init__` stores `max_requests`, `time_window` and an empty
deque of request timestamps; we carry the deque as a list whose head is
the leftmost (oldest) element. -/

structure RateLimiter where
  max_requests : ℕ
  time_window : ℚ
  requests : List ℚ
  deriving Repr, DecidableEq

namespace RateLimiter

/-- The purge loop of `acquire`:
`while self.requests and now - self.requests[0] > self.time_window:
   self.requests.popleft()`.
It pops from the front and stops at the first retained timestamp. -/
def purge (window : ℚ) (now : ℚ) : List ℚ → List ℚ
  | [] => []
  | t :: ts => if now - t > window then purge window now ts else t :: ts

/-- `RateLimiter.acquire` (src/rate_limiter.py lines 21-38): purge old
timestamps, refuse when the retained count is at or above
`max_requests`, otherwise append `now` and admit. Returns the decision
and the updated limiter. -/
def acquire (rl : RateLimiter) (now : ℚ) : Bool × RateLimiter :=
  let reqs := purge rl.time_window now rl.requests
  if rl.max_requests ≤ reqs.length then
    (false, { rl with requests := reqs })
  else
    (true, { rl with requests := reqs ++ [now] })

/-- `RateLimiter.get_retry_after` (src/rate_limiter.py lines 40-50):
`0` when no timestamps are retained, otherwise
`max(0, int(self.time_window - elapsed) + 1)` with
`elapsed = now - oldest_request`. -/
def get_retry_after (rl : RateLimiter) (now : ℚ) : ℤ :=
  match rl.requests with
  | [] => 0
  | oldest :: _ => max 0 (ratTrunc (rl.time_window - (now - oldest)) + 1)

/-- Running a sequence of `acquire` calls at the given times, returning
the per-call log of (call time, decision) and the final limiter state. -/
def runAcquires (rl : RateLimiter) : List ℚ → List (ℚ × Bool) × RateLimiter
  | [] => ([], rl)
  | now :: rest =>
      let step := acquire rl now
      let tail := runAcquires step.2 rest
      ((now, step.1) :: tail.1, tail.2)

/-- Number of admitted calls whose time falls in the closed sliding
window `[a, a + w]`. -/
def admitsIn (a w : ℚ) (log : List (ℚ × Bool)) : ℕ :=
  (log.filter (fun p => decide (a ≤ p.1) && decide (p.1 ≤ a + w) && p.2)).length

/-- The fresh limiter built by `RateLimiter.__init__`. -/
def init (max_requests : ℕ) (time_window : ℚ) : RateLimiter :=
  ⟨max_requests, time_window, []⟩

end RateLimiter

/-- The module-level inbound limiter:
`inbound_limiter = RateLimiter(max_requests=100, time_window=1.0)`. -/
def inbound_limiter : RateLimiter := RateLimiter.init 100 1

/-- The spec formula for `retryAfterSeconds`, written from the spec
words (`max(0, ceil(windowSeconds - (now - oldestRetainedTimestamp)))`,
or 0 if no timestamps are retained) for comparison with
`RateLimiter.get_retry_after`. -/
def specRetryAfter (rl : RateLimiter) (now : ℚ) : ℤ :=
  match rl.requests with
  | [] => 0
  | oldest :: _ => max 0 ⌈rl.time_window - (now - oldest)⌉

/-- Number of timestamps at or after the instant `a`. -/
def countGE (a : ℚ) (l : List ℚ) : ℕ := l.countP (fun t => decide (a ≤ t))

/-! ## Grok client (src/grok_client.py)

The retry loop of `analyze_conversation` is embedded as a function of
the per-attempt outcome of the external HTTP call: each attempt either
yields a well-formed structural payload, raises `json.JSONDecodeError`,
raises `httpx.HTTPStatusError` with a status code (and optional
Retry-After header), or raises any other exception. -/


/-- A well-formed structural response: the parsed JSON object, with each
field optional (`analysis.get(...)`). Numeric fields are the float
values after the `float(...)` coercion. -/
structure GrokPayload where
  sentiment_score : Option ℚ
  clusters : Option (List String)
  confidence : Option ℚ
  reasoning : Option String
  deriving Repr, DecidableEq

/-- The normalized analysis dict returned by `analyze_conversation`. -/
structure GrokResult where
  sentiment_score : ℚ
  clusters : List String
  confidence : ℚ
  reasoning : String
  deriving Repr, DecidableEq

/-- What one iteration of the retry loop observes from the external
call: success with a parsed payload, a structural-parse failure, an
HTTP status error (with the Retry-After header value, if any), or any
other exception (network error, timeout, ...). -/
inductive AttemptOutcome where
  | ok (payload : GrokPayload)
  | parseFailure (msg : String)
  | httpError (code : ℕ) (retryAfterHeader : Option ℕ)
  | otherError (msg : String)
  deriving Repr, DecidableEq

/-- An error propagated out of `analyze_conversation`. -/
inductive GrokError where
  | httpStatus (code : ℕ)
  | other (msg : String)
  deriving Repr, DecidableEq

/-- How a call to `analyze_conversation` ends: it returns a result dict,
it raises, or the `for` loop finishes all its iterations without
returning and the function implicitly returns `None`. -/
inductive AnalyzeOutcome where
  | returns (r : GrokResult)
  | raises (e : GrokError)
  | returnsNone
  deriving Repr, DecidableEq

/-- The validate-and-normalize step of `analyze_conversation`
(src/grok_client.py lines 117-124): `sentiment_score` defaults to 0.0,
`clusters` to the empty list, `confidence` to 0.5 and `reasoning` to
"Analysis completed". -/
def normalize (p : GrokPayload) : GrokResult :=
  { sentiment_score := p.sentiment_score.getD 0
    clusters := p.clusters.getD []
    confidence := p.confidence.getD (1/2)
    reasoning := p.reasoning.getD "Analysis completed" }

/-- The fallback dict returned when JSON parsing fails on the final
attempt (src/grok_client.py lines 130-136). -/
def fallbackResult (msg : String) : GrokResult :=
  { sentiment_score := 0
    clusters := ["unknown"]
    confidence := 0
    reasoning := "Failed to parse Grok response: " ++ msg }

/-- The `for attempt in range(max_retries)` retry loop of
`analyze_conversation` (src/grok_client.py lines 90-142). Returns how
the call ends together with the list of sleep durations, in seconds, in
order: `2 ** attempt` before a parse-failure or generic-exception retry
(only when `attempt < max_retries - 1`), and the Retry-After value
(defaulting to 5) on a 429, on every attempt including the last.
A non-429 HTTP status error re-raises immediately; when the loop runs
out of iterations the function implicitly returns `None`. -/
def retryLoop (outcomes : ℕ → AttemptOutcome) (maxRetries attempt : ℕ) :
    AnalyzeOutcome × List ℕ :=
  if _h : attempt < maxRetries then
    match outcomes attempt with
    | .ok p => (.returns (normalize p), [])
    | .parseFailure msg =>
        if attempt < maxRetries - 1 then
          let rest := retryLoop outcomes maxRetries (attempt + 1)
          (rest.1, 2 ^ attempt :: rest.2)
        else (.returns (fallbackResult msg), [])
    | .httpError code hdr =>
        if code = 429 then
          let rest := retryLoop outcomes maxRetries (attempt + 1)
          (rest.1, hdr.getD 5 :: rest.2)
        else (.raises (.httpStatus code), [])
    | .otherError msg =>
        if attempt < maxRetries - 1 then
          let rest := retryLoop outcomes maxRetries (attempt + 1)
          (rest.1, 2 ^ attempt :: rest.2)
        else (.raises (.other msg), [])
  else (.returnsNone, [])
termination_by maxRetries - attempt
decreasing_by all_goals omega

/-- `analyze_conversation` with `max_retries = 3`, as a function of the
per-attempt outcomes of the external call. -/
def analyze_conversation (outcomes : ℕ → AttemptOutcome) : AnalyzeOutcome × List ℕ :=
  retryLoop outcomes 3 0

/-- The outbound throttle at the top of `analyze_conversation`
(src/grok_client.py lines 27-41): keep only timestamps with
`now - t < 1.0`; if 10 or more remain, sleep `1.0 - (now - oldest)`
when positive; then append the post-sleep timestamp and proceed with
the call unconditionally. Returns (call proceeds, wait duration,
updated `_last_call_times`). -/
def outboundGate (lastCallTimes : List ℚ) (now : ℚ) : Bool × ℚ × List ℚ :=
  let kept := lastCallTimes.filter (fun t => decide (now - t < 1))
  let wait : ℚ :=
    if 10 ≤ kept.length then
      match kept with
      | [] => 0
      | t0 :: _ => max 0 (1 - (now - t0))
    else 0
  (true, wait, kept ++ [now + wait])

/-! ## Batch processor (src/batch_processor.py)

`_process_single` consumes the outcome of `analyze_conversation` for
the item's text; `_process_batch` claims every item, processes all of
them, and commits the whole batch. -/

/-- A `Conversation` row (src/models.py): the fields the batch
processor reads and writes. -/
structure Conversation where
  id : String
  text : String
  timestamp : ℚ
  status : String
  deriving Repr, DecidableEq

/-- An `Insight` row (src/models.py): the analysis result the processor
hands off for a completed conversation. -/
structure Insight where
  conversation_id : String
  timestamp : ℚ
  text : String
  sentiment_score : ℚ
  clusters : List String
  confidence : ℚ
  reasoning : String
  deriving Repr, DecidableEq

namespace BatchProcessor

/-- `BatchProcessor._process_single` (src/batch_processor.py lines
82-109): on a returned analysis dict it builds the `Insight` and marks
the conversation completed; any exception — a propagated analysis
failure, or the `TypeError` from subscripting the `None` that
`analyze_conversation` returns when every attempt was rate-limited —
is caught and marks only this conversation failed. -/
def processSingle (analysis : AnalyzeOutcome) (conv : Conversation) :
    Conversation × Option Insight :=
  match analysis with
  | .returns r =>
      ({ conv with status := "completed" },
       some { conversation_id := conv.id
              timestamp := conv.timestamp
              text := conv.text
              sentiment_score := r.sentiment_score
              clusters := r.clusters
              confidence := r.confidence
              reasoning := r.reasoning })
  | .raises _ => ({ conv with status := "failed" }, none)
  | .returnsNone => ({ conv with status := "failed" }, none)

/-- `BatchProcessor._process_batch` (src/batch_processor.py lines
70-80): flip every claimed conversation to processing, process each one
(awaiting all of them, exceptions contained per item), then commit the
whole batch: the updated conversations and the collected insights. -/
def processBatch (analyzeOf : String → AnalyzeOutcome)
    (conversations : List Conversation) : List Conversation × List Insight :=
  let claimed := conversations.map (fun c => { c with status := "processing" })
  let results := claimed.map (fun c => processSingle (analyzeOf c.text) c)
  (results.map Prod.fst, results.filterMap Prod.snd)

/-- The per-item status `processBatch` commits, as a function of the
item's analysis outcome. -/
def statusAfter (analyzeOf : String → AnalyzeOutcome) (c : Conversation) : String :=
  match analyzeOf c.text with
  | .returns _ => "completed"
  | _ => "failed"

end BatchProcessor

/-- A concrete batch of 10 pending conversations. -/
def demoConversations : List Conversation :=
  (List.range 10).map (fun i =>
    { id := "conv" ++ toString i
      text := "text" ++ toString i
      timestamp := 0
      status := "pending" })

/-- A concrete analysis function under which nine items succeed and the
item with text "text9" fails permanently. -/
def demoAnalyze : String → AnalyzeOutcome :=
  fun t =>
    if t = "text9" then .raises (.other "permanent failure")
    else .returns (normalize ⟨some 1, some ["praise"], some 1, some "ok"⟩)

/-- The mutable state of a `BatchProcessor` (src/batch_processor.py
lines 16-19): the batch size, the running flag, and the handle of the
processing-loop task (`None` until started); task handles are modelled
as numbers. -/
structure BatchProcessorState where
  batch_size : ℕ
  running : Bool
  task : Option ℕ
  deriving Repr, DecidableEq

namespace BatchProcessorState

/-- `BatchProcessor.__init__(batch_size=10)`. -/
def init (batch_size : ℕ) : BatchProcessorState :=
  { batch_size := batch_size, running := false, task := none }

/-- `BatchProcessor.start` (src/batch_processor.py lines 21-28):
returns immediately when already running; otherwise sets the running
flag and stores the freshly created processing-loop task. -/
def start (bp : BatchProcessorState) (newTask : ℕ) : BatchProcessorState :=
  if bp.running then bp
  else { bp with running := true, task := some newTask }

end BatchProcessorState


namespace RateLimiter

theorem ratTrunc_lt_add_one (x : ℚ) : x < (ratTrunc x : ℤ) + 1 := by
  unfold ratTrunc
  split
  · exact_mod_cast Int.lt_floor_add_one x
  · have h := Int.le_ceil x
    linarith

theorem purge_suffix (w n : ℚ) : ∀ l : List ℚ, (purge w n l).IsSuffix l := by
  intro l
  induction l with
  | nil => exact List.suffix_rfl
  | cons t ts ih =>
      by_cases h : n - t > w
      · simpa [purge, h] using ih.trans (List.suffix_cons t ts)
      · simp [purge, h]

theorem purge_length_le (w n : ℚ) (l : List ℚ) : (purge w n l).length ≤ l.length :=
  (purge_suffix w n l).sublist.length_le

theorem countGE_purge_le (a w n : ℚ) (l : List ℚ) :
    countGE a (purge w n l) ≤ countGE a l :=
  (purge_suffix w n l).sublist.countP_le _

/-- Purging at an instant `now ≤ a + w` removes no timestamp that is
at or after `a`: any purged `t` has `now - t > w`, so `t ≥ a` would
force `now > a + w`. -/
theorem countGE_purge_eq (a w now : ℚ) (hnow : now ≤ a + w) :
    ∀ l : List ℚ, countGE a (purge w now l) = countGE a l := by
  intro l
  induction l with
  | nil => rfl
  | cons t ts ih =>
      by_cases h : now - t > w
      · have hta : ¬ a ≤ t := by
          intro hat
          linarith
        simp [purge, h, countGE, List.countP_cons, hta] at *
        exact ih
      · simp [purge, h]

theorem runAcquires_times (rl : RateLimiter) (trace : List ℚ) :
    ∀ p ∈ (runAcquires rl trace).1, p.1 ∈ trace := by
  induction trace generalizing rl with
  | nil => simp [runAcquires]
  | cons now rest ih =>
      intro p hp
      simp only [runAcquires, List.mem_cons] at hp
      rcases hp with h | h
      · simp [h]
      · exact List.mem_cons_of_mem _ (ih _ _ h)

theorem acquire_max_requests (rl : RateLimiter) (now : ℚ) :
    (acquire rl now).2.max_requests = rl.max_requests := by
  by_cases h : rl.max_requests ≤ (purge rl.time_window now rl.requests).length <;>
    simp [acquire, h]

theorem acquire_time_window (rl : RateLimiter) (now : ℚ) :
    (acquire rl now).2.time_window = rl.time_window := by
  by_cases h : rl.max_requests ≤ (purge rl.time_window now rl.requests).length <;>
    simp [acquire, h]

theorem admitsIn_cons_false (a w t : ℚ) (log : List (ℚ × Bool)) :
    admitsIn a w ((t, false) :: log) = admitsIn a w log := by
  simp [admitsIn]

theorem admitsIn_cons_true (a w t : ℚ) (log : List (ℚ × Bool)) :
    admitsIn a w ((t, true) :: log) =
      (if a ≤ t ∧ t ≤ a + w then 1 else 0) + admitsIn a w log := by
  by_cases h1 : a ≤ t <;> by_cases h2 : t ≤ a + w <;>
    simp [admitsIn, List.filter_cons, h1, h2, Nat.add_comm]

theorem countGE_append_singleton (a t : ℚ) (l : List ℚ) :
    countGE a (l ++ [t]) = countGE a l + (if a ≤ t then 1 else 0) := by
  by_cases h : a ≤ t <;> simp [countGE, List.countP_append, List.countP_cons, h]

theorem countGE_le_length (a : ℚ) (l : List ℚ) : countGE a l ≤ l.length :=
  List.countP_le_length _

/-- Core invariant for the sliding-window bound: running any
nondecreasing sequence of `acquire` calls, the number of retained
timestamps at or after `a` plus the number of admissions inside
`[a, a + window]` never exceeds the configured capacity. -/
theorem countGE_add_admitsIn_le (a : ℚ) :
    ∀ (trace : List ℚ), trace.Sorted (· ≤ ·) → ∀ (rl : RateLimiter),
      countGE a rl.requests ≤ rl.max_requests →
      countGE a rl.requests + admitsIn a rl.time_window (runAcquires rl trace).1
        ≤ rl.max_requests := by
  intro trace
  induction trace with
  | nil =>
      intro _ rl hc
      simpa [runAcquires, admitsIn] using hc
  | cons now rest ih =>
      intro hsorted rl hc
      have hrest : rest.Sorted (· ≤ ·) := (List.sorted_cons.mp hsorted).2
      have hle : ∀ s ∈ rest, now ≤ s := (List.sorted_cons.mp hsorted).1
      by_cases hnow : now ≤ a + rl.time_window
      · -- the call happens no later than the right edge of the window
        have hpurge := countGE_purge_eq a rl.time_window now hnow rl.requests
        by_cases hfull : rl.max_requests ≤ (purge rl.time_window now rl.requests).length
        · -- refused: state keeps the purged timestamps, log entry is false
          have hstep : acquire rl now =
              (false, { rl with requests := purge rl.time_window now rl.requests }) := by
            simp [acquire, hfull]
          have hc' : countGE a (purge rl.time_window now rl.requests) ≤ rl.max_requests := by
            rw [hpurge]; exact hc
          have hih := ih hrest { rl with requests := purge rl.time_window now rl.requests } hc'
          simp only [runAcquires, hstep] at *
          rw [admitsIn_cons_false]
          simpa [hpurge] using hih
        · -- admitted: `now` is appended
          have hstep : acquire rl now =
              (true, { rl with requests := purge rl.time_window now rl.requests ++ [now] }) := by
            simp [acquire, hfull]
          have hlt : (purge rl.time_window now rl.requests).length < rl.max_requests :=
            Nat.lt_of_not_le hfull
          have hcount_le := countGE_le_length a (purge rl.time_window now rl.requests)
          have hc' : countGE a (purge rl.time_window now rl.requests ++ [now])
              ≤ rl.max_requests := by
            rw [countGE_append_singleton]
            by_cases han : a ≤ now <;> simp [han] <;> omega
          have hih := ih hrest
            { rl with requests := purge rl.time_window now rl.requests ++ [now] } hc'
          dsimp only at hih
          rw [countGE_append_singleton] at hih
          simp only [runAcquires, hstep]
          rw [admitsIn_cons_true]
          by_cases han : a ≤ now
          · rw [if_pos ⟨han, hnow⟩]
            rw [if_pos han] at hih
            omega
          · rw [if_neg (fun h => han h.1)]
            rw [if_neg han] at hih
            omega
      · -- the whole remaining trace lies beyond the window: no admissions count
        have hbeyond : ∀ p ∈ (runAcquires rl (now :: rest)).1, a + rl.time_window < p.1 := by
          intro p hp
          have hm := runAcquires_times rl (now :: rest) p hp
          rcases List.mem_cons.mp hm with h | h
          · rw [h]; exact lt_of_not_ge hnow
          · exact lt_of_lt_of_le (lt_of_not_ge hnow) (hle _ h)
        have hzero : admitsIn a rl.time_window (runAcquires rl (now :: rest)).1 = 0 := by
          unfold admitsIn
          rw [List.length_eq_zero, List.filter_eq_nil_iff]
          intro p hp
          have hlt := hbeyond p hp
          simp only [Bool.and_eq_true, decide_eq_true_eq, not_and]
          intro hab _
          exact not_le.mpr hlt hab.2
        rw [hzero]
        simpa using hc

end RateLimiter

/-- Claim C1: for every nondecreasing sequence of call times, the rate
gate started from a fresh `RateLimiter` admits at most `capacity`
(`max_requests`) calls within any sliding window `[a, a + windowSeconds]`:
each `acquire` purges timestamps older than the window, refuses at or
above capacity without appending, and otherwise appends and admits. -/
theorem rate_gate_sliding_window_bound (cap : ℕ) (W : ℚ) (trace : List ℚ)
    (hsorted : trace.Sorted (· ≤ ·)) (a : ℚ) :
    RateLimiter.admitsIn a W
      (RateLimiter.runAcquires (RateLimiter.init cap W) trace).1 ≤ cap := by
  have h := RateLimiter.countGE_add_admitsIn_le a trace hsorted (RateLimiter.init cap W)
    (by simp [countGE, RateLimiter.init])
  simpa [countGE, RateLimiter.init] using h

/-- Witness for C1 at a concrete trace: with capacity 2 and window 1,
the run over four simultaneous calls at time 0 admits at most 2 calls
inside the window starting at 0. -/
theorem rate_gate_sliding_window_bound_witness :
    RateLimiter.admitsIn 0 1
      (RateLimiter.runAcquires (RateLimiter.init 2 1) [0, 0, 0, 0]).1 ≤ 2 :=
  rate_gate_sliding_window_bound 2 1 [0, 0, 0, 0]
    (by simp [List.sorted_cons]) 0

/-- Counterexample to claim C6: with window 1 and a single timestamp
taken at the current instant, `get_retry_after` returns
`max(0, int(1 - 0) + 1) = 2`, while the spec formula
`max(0, ceil(windowSeconds - (now - oldest)))` gives 1. -/
theorem get_retry_after_ceil_counterexample :
    RateLimiter.get_retry_after ⟨1, 1, [0]⟩ 0 = 2 ∧
    specRetryAfter ⟨1, 1, [0]⟩ 0 = 1 ∧
    RateLimiter.get_retry_after ⟨1, 1, [0]⟩ 0 ≠ specRetryAfter ⟨1, 1, [0]⟩ 0 := by
  refine ⟨?_, ?_, ?_⟩ <;>
    norm_num [RateLimiter.get_retry_after, specRetryAfter, ratTrunc]

/-- Claim C6 as amended: `get_retry_after` returns 0 when no timestamps
are retained, and otherwise `max(0, trunc(windowSeconds - elapsed) + 1)`
with truncation toward zero — that is, `floor(windowSeconds - elapsed) + 1`
when `windowSeconds - elapsed ≥ 0` and `max(0, ceil(windowSeconds -
elapsed) + 1)` when it is negative — rather than the spec's
`max(0, ceil(windowSeconds - elapsed))`. -/
theorem get_retry_after_trunc_formula (rl : RateLimiter) (now : ℚ) :
    (rl.requests = [] → rl.get_retry_after now = 0) ∧
    (∀ oldest rest, rl.requests = oldest :: rest →
      (0 ≤ rl.time_window - (now - oldest) →
        rl.get_retry_after now = ⌊rl.time_window - (now - oldest)⌋ + 1) ∧
      (rl.time_window - (now - oldest) < 0 →
        rl.get_retry_after now = max 0 (⌈rl.time_window - (now - oldest)⌉ + 1))) := by
  constructor
  · intro h
    simp [RateLimiter.get_retry_after, h]
  · intro oldest rest h
    constructor
    · intro h0
      simp only [RateLimiter.get_retry_after, h, ratTrunc, if_pos h0]
      have := Int.floor_nonneg.mpr h0
      omega
    · intro hneg
      simp only [RateLimiter.get_retry_after, h, ratTrunc, if_neg (not_le.mpr hneg)]

/-- Witness for the amended C6 at a concrete state: one timestamp taken
now, window 1, gives `floor(1) + 1 = 2`. -/
theorem get_retry_after_trunc_formula_witness :
    RateLimiter.get_retry_after ⟨1, 1, [0]⟩ 0 = ⌊(1 : ℚ) - ((0 : ℚ) - 0)⌋ + 1 :=
  ((get_retry_after_trunc_formula ⟨1, 1, [0]⟩ 0).2 0 [] rfl).1 (by simp)

/-- Claim C7: `get_retry_after` is never negative, and whenever it is
nonzero, calling `acquire` after advancing time by exactly that many
seconds succeeds, provided the retained count does not exceed the
capacity (the invariant `acquire` maintains) and no other admissions
happen in between. -/
theorem retry_after_wait_then_acquire (rl : RateLimiter) (now : ℚ)
    (hlen : rl.requests.length ≤ rl.max_requests) :
    0 ≤ rl.get_retry_after now ∧
    (rl.get_retry_after now ≠ 0 →
      (rl.acquire (now + (rl.get_retry_after now : ℚ))).1 = true) := by
  constructor
  · cases hreq : rl.requests with
    | nil => simp [RateLimiter.get_retry_after, hreq]
    | cons oldest rest =>
        simp only [RateLimiter.get_retry_after, hreq]
        exact le_max_left 0 _
  · intro hne
    cases hreq : rl.requests with
    | nil => simp [RateLimiter.get_retry_after, hreq] at hne
    | cons oldest rest =>
        have hdef : rl.get_retry_after now =
            max 0 (ratTrunc (rl.time_window - (now - oldest)) + 1) := by
          simp [RateLimiter.get_retry_after, hreq]
        have hk : 0 < ratTrunc (rl.time_window - (now - oldest)) + 1 := by
          by_contra h
          push_neg at h
          rw [hdef] at hne
          omega
        have hw : rl.get_retry_after now =
            ratTrunc (rl.time_window - (now - oldest)) + 1 := by
          rw [hdef]; omega
        have hgt : rl.time_window - (now - oldest) < (rl.get_retry_after now : ℚ) := by
          rw [hw]
          exact_mod_cast RateLimiter.ratTrunc_lt_add_one (rl.time_window - (now - oldest))
        have hcond : now + (rl.get_retry_after now : ℚ) - oldest > rl.time_window := by
          linarith
        have hpurge : RateLimiter.purge rl.time_window
            (now + (rl.get_retry_after now : ℚ)) rl.requests =
            RateLimiter.purge rl.time_window (now + (rl.get_retry_after now : ℚ)) rest := by
          rw [hreq]
          simp [RateLimiter.purge, hcond]
        have hpl := RateLimiter.purge_length_le rl.time_window
          (now + (rl.get_retry_after now : ℚ)) rest
        have hrest_len : rest.length + 1 ≤ rl.max_requests := by
          rw [hreq] at hlen
          simpa using hlen
        have hnotle : ¬ rl.max_requests ≤
            (RateLimiter.purge rl.time_window
              (now + (rl.get_retry_after now : ℚ)) rl.requests).length := by
          rw [hpurge]
          omega
        simp only [RateLimiter.acquire]
        rw [if_neg hnotle]

/-- Witness for C7 at a concrete state: limiter with capacity 1,
window 1, one timestamp at 0; `get_retry_after` at time 0 is 2 ≠ 0 and
admitting at time 0 + 2 succeeds. -/
theorem retry_after_wait_then_acquire_witness :
    0 ≤ RateLimiter.get_retry_after ⟨1, 1, [0]⟩ 0 ∧
    (RateLimiter.acquire ⟨1, 1, [0]⟩
      (0 + (RateLimiter.get_retry_after ⟨1, 1, [0]⟩ 0 : ℚ))).1 = true :=
  ⟨(retry_after_wait_then_acquire ⟨1, 1, [0]⟩ 0 (by simp)).1,
   (retry_after_wait_then_acquire ⟨1, 1, [0]⟩ 0 (by simp)).2
     (by simp [RateLimiter.get_retry_after, ratTrunc])⟩

/-- Claim C3: when the structural parse fails on every attempt,
`analyze_conversation` backs off 1s then 2s, and on the third failure
returns the degraded fallback — sentimentScore 0.0, clusters
["unknown"], confidence 0.0, and a reasoning string describing the
parse failure — and never raises. -/
theorem parse_failure_degraded_fallback (outcomes : ℕ → AttemptOutcome)
    (msgs : ℕ → String) (h : ∀ i, outcomes i = .parseFailure (msgs i)) :
    analyze_conversation outcomes =
      (.returns { sentiment_score := 0
                  clusters := ["unknown"]
                  confidence := 0
                  reasoning := "Failed to parse Grok response: " ++ msgs 2 },
       [1, 2]) := by
  simp [analyze_conversation, retryLoop, h, fallbackResult]

/-- Witness for C3: three parse failures with message "bad" yield the
fallback result. -/
theorem parse_failure_degraded_fallback_witness :
    analyze_conversation (fun _ => .parseFailure "bad") =
      (.returns { sentiment_score := 0
                  clusters := ["unknown"]
                  confidence := 0
                  reasoning := "Failed to parse Grok response: " ++ "bad" },
       [1, 2]) :=
  parse_failure_degraded_fallback (fun _ => .parseFailure "bad")
    (fun _ => "bad") (fun _ => rfl)

/-- Claim C4, evaluated at the failing input: three successive external
rate-limit signals each sleep the advisory wait — the Retry-After value
when present, 5 seconds otherwise, never the exponential backoff — and
each consumes one of the 3 attempts; but after the third 429 the retry
loop falls through and `analyze_conversation` implicitly returns `None`
rather than delivering a failure. A single 429 followed by success
consumes exactly one attempt and sleeps the advisory 7 seconds. -/
theorem rate_limit_signals_consume_attempts_then_none :
    analyze_conversation (fun _ => .httpError 429 none) = (.returnsNone, [5, 5, 5]) ∧
    analyze_conversation (fun _ => .httpError 429 (some 3)) = (.returnsNone, [3, 3, 3]) ∧
    analyze_conversation
        (fun i => if i = 0 then .httpError 429 (some 7) else .ok ⟨none, none, none, none⟩) =
      (.returns (normalize ⟨none, none, none, none⟩), [7]) := by
  refine ⟨?_, ?_, ?_⟩ <;> simp [analyze_conversation, retryLoop]

/-- Counterexample to claim C5: a non-rate-limit HTTP error (status
500) propagates on the very first attempt, with no retry and no
backoff sleeps, so this failure class is not retried up to 3 attempts. -/
theorem http_error_no_retry_counterexample :
    analyze_conversation (fun _ => .httpError 500 none) =
      (.raises (.httpStatus 500), []) ∧
    (analyze_conversation (fun _ => .httpError 500 none)).2 ≠ [1, 2] := by
  constructor <;> simp [analyze_conversation, retryLoop]

/-- Claim C5 as amended: generic transient failures (network errors,
timeouts — any exception other than an HTTP status error) are retried
up to the 3-attempt total with exponential backoff of 1s then 2s
between attempts, the failure propagating only after exhaustion; but a
non-rate-limit HTTP status error propagates immediately, without retry
or backoff. -/
theorem transient_failure_retry_policy (outcomes : ℕ → AttemptOutcome) :
    (∀ msgs : ℕ → String, (∀ i, outcomes i = .otherError (msgs i)) →
      analyze_conversation outcomes = (.raises (.other (msgs 2)), [1, 2])) ∧
    (∀ code hdr, outcomes 0 = .httpError code hdr → code ≠ 429 →
      analyze_conversation outcomes = (.raises (.httpStatus code), [])) := by
  constructor
  · intro msgs h
    simp [analyze_conversation, retryLoop, h]
  · intro code hdr h hc
    simp [analyze_conversation, retryLoop, h, hc]

/-- Witness for the amended C5: three timeouts propagate after backoffs
1s, 2s; a first-attempt HTTP 500 propagates with no sleeps. -/
theorem transient_failure_retry_policy_witness :
    analyze_conversation (fun _ => .otherError "timeout") =
      (.raises (.other "timeout"), [1, 2]) ∧
    analyze_conversation (fun _ => .httpError 500 none) =
      (.raises (.httpStatus 500), []) :=
  ⟨(transient_failure_retry_policy (fun _ => .otherError "timeout")).1
      (fun _ => "timeout") (fun _ => rfl),
   (transient_failure_retry_policy (fun _ => .httpError 500 none)).2
      500 none rfl (by decide)⟩

/-- Counterexample to claim C8: the well-formed structural response
with sentiment_score 5 and all other fields absent is normalized, and
handed off for a completed item, with sentimentScore 5 — outside
[-1, 1] — and an empty cluster list. -/
theorem analysis_result_bounds_counterexample :
    (normalize ⟨some 5, none, none, none⟩).sentiment_score = 5 ∧
    (normalize ⟨some 5, none, none, none⟩).clusters = [] ∧
    (BatchProcessor.processSingle (.returns (normalize ⟨some 5, none, none, none⟩))
        ⟨"conv0", "text0", 0, "processing"⟩).1.status = "completed" ∧
    (BatchProcessor.processSingle (.returns (normalize ⟨some 5, none, none, none⟩))
        ⟨"conv0", "text0", 0, "processing"⟩).2 =
      some ⟨"conv0", 0, "text0", 5, [], 1/2, "Analysis completed"⟩ ∧
    ¬ (((-1 : ℚ) ≤ (normalize ⟨some 5, none, none, none⟩).sentiment_score ∧
        (normalize ⟨some 5, none, none, none⟩).sentiment_score ≤ 1) ∧
       (normalize ⟨some 5, none, none, none⟩).clusters ≠ []) := by
  refine ⟨rfl, rfl, rfl, rfl, ?_⟩
  norm_num [normalize]

/-- Claim C8 as amended: the handed-off result coerces sentimentScore
and confidence to floats without clamping, defaulting them to 0.0 and
0.5 when absent, and defaults clusters to the empty list when absent;
the [-1, 1] and [0, 1] bounds therefore hold exactly when the payload
itself respects them, and the cluster list may be empty. -/
theorem normalize_defaults_and_conditional_bounds (p : GrokPayload)
    (hs : ∀ x, p.sentiment_score = some x → -1 ≤ x ∧ x ≤ 1)
    (hc : ∀ x, p.confidence = some x → 0 ≤ x ∧ x ≤ 1) :
    ((-1 : ℚ) ≤ (normalize p).sentiment_score ∧ (normalize p).sentiment_score ≤ 1) ∧
    ((0 : ℚ) ≤ (normalize p).confidence ∧ (normalize p).confidence ≤ 1) ∧
    (normalize p).clusters = p.clusters.getD [] ∧
    (p.sentiment_score = none → (normalize p).sentiment_score = 0) ∧
    (p.confidence = none → (normalize p).confidence = 1/2) := by
  refine ⟨?_, ?_, rfl, ?_, ?_⟩
  · cases hps : p.sentiment_score with
    | none => simp [normalize, hps]
    | some x => simpa [normalize, hps] using hs x hps
  · cases hpc : p.confidence with
    | none => norm_num [normalize, hpc]
    | some x => simpa [normalize, hpc] using hc x hpc
  · intro h
    simp [normalize, h]
  · intro h
    simp [normalize, h]

/-- Witness for the amended C8 at the all-absent payload: bounds hold
and every default fires. -/
theorem normalize_defaults_and_conditional_bounds_witness :
    ((-1 : ℚ) ≤ (normalize ⟨none, none, none, none⟩).sentiment_score ∧
      (normalize ⟨none, none, none, none⟩).sentiment_score ≤ 1) ∧
    ((0 : ℚ) ≤ (normalize ⟨none, none, none, none⟩).confidence ∧
      (normalize ⟨none, none, none, none⟩).confidence ≤ 1) ∧
    (normalize ⟨none, none, none, none⟩).clusters =
      (Option.getD (none : Option (List String)) []) ∧
    ((none : Option ℚ) = none → (normalize ⟨none, none, none, none⟩).sentiment_score = 0) ∧
    ((none : Option ℚ) = none → (normalize ⟨none, none, none, none⟩).confidence = 1/2) :=
  normalize_defaults_and_conditional_bounds ⟨none, none, none, none⟩
    (fun x h => by simp at h) (fun x h => by simp at h)

/-- Counterexample to claim C9: with ten timestamps retained from time
0, at time 1/2 the `RateLimiter` admission algorithm with the outbound
parameters (capacity 10, window 1s) refuses the call, while the
outbound throttle in `analyze_conversation` proceeds with it — the two
are not the same admission function. -/
theorem outbound_gate_differs_counterexample :
    (RateLimiter.acquire ⟨10, 1, List.replicate 10 0⟩ (1/2)).1 = false ∧
    (outboundGate (List.replicate 10 0) (1/2)).1 = true := by
  constructor
  · norm_num [RateLimiter.acquire, RateLimiter.purge, List.replicate]
  · rfl

/-- Claim C9 as amended: the inbound gate is the `RateLimiter`
admit-or-refuse algorithm (capacity 100, window 1s, starting empty),
but the outbound path is a different mechanism — a purge-and-sleep list
that waits out the window and then always proceeds, never refusing a
call — and the two share no state. -/
theorem outbound_gate_always_proceeds (lastCallTimes : List ℚ) (now : ℚ) :
    (outboundGate lastCallTimes now).1 = true ∧
    inbound_limiter = RateLimiter.init 100 1 :=
  ⟨rfl, rfl⟩

/-- Claim C2: `processBatch` commits every claimed item, flipping an
item to completed exactly when its analysis returns a result and to
failed otherwise, each item independently of its siblings; in
particular the concrete batch of 9 succeeding items and 1 permanently
failing item commits all 10, with 9 completed and 1 failed. -/
theorem batch_partial_failure_isolation :
    (∀ (analyzeOf : String → AnalyzeOutcome) (conversations : List Conversation),
      (BatchProcessor.processBatch analyzeOf conversations).1 =
        conversations.map (fun c =>
          { c with status := BatchProcessor.statusAfter analyzeOf c })) ∧
    (BatchProcessor.processBatch demoAnalyze demoConversations).1.length = 10 ∧
    ((BatchProcessor.processBatch demoAnalyze demoConversations).1.countP
      (fun c => c.status == "completed")) = 9 ∧
    ((BatchProcessor.processBatch demoAnalyze demoConversations).1.countP
      (fun c => c.status == "failed")) = 1 := by
  refine ⟨?_, ?_, ?_, ?_⟩
  · intro analyzeOf conversations
    induction conversations with
    | nil => rfl
    | cons c cs ih =>
        cases h : analyzeOf c.text <;>
          simp [BatchProcessor.processBatch, BatchProcessor.processSingle,
            BatchProcessor.statusAfter, h] at ih ⊢ <;>
          simpa [BatchProcessor.processBatch] using ih
  · rfl
  · rfl
  · rfl

/-- Claim C10: calling `BatchProcessor.start` while the processor is
already running returns the state unchanged — no second processing-loop
task is created and the running flag and stored task are untouched. -/
theorem start_idempotent_when_running (bp : BatchProcessorState) (newTask : ℕ)
    (h : bp.running = true) :
    bp.start newTask = bp := by
  simp [BatchProcessorState.start, h]

/-- Witness for C10: starting an already-running processor with a fresh
task handle changes nothing. -/
theorem start_idempotent_when_running_witness :
    BatchProcessorState.start ⟨10, true, some 0⟩ 1 = ⟨10, true, some 0⟩ :=
  start_idempotent_when_running ⟨10, true, some 0⟩ 1 rfl

end GrokPlatform
